import Mathlib

/-
Verification of the LMASS multi-agent economic simulator.

The repository ships the frontend (TypeScript types, API client, and React
views) while the backend simulation core (shock model, market clearing,
rollout orchestrator, cartel detector, metrics engine) lives behind the
deployed API.  The core is therefore modelled here from the specification
(sections 3 to 8), with exact rational arithmetic in place of floating
point; the frontend pieces (config building, comparison view) are embedded
directly from the TypeScript source.
-/

namespace LMASS

/-- Modelled from the spec: shock parameters of a ScenarioConfig (section 3);
the backend `sim/` package holding this type is not in the repository.
Magnitude is in [0,1], duration and start count periods, recovery rate is a
per-period geometric recovery factor. -/
structure ShockSpec where
  magnitude : ℚ
  duration : ℕ
  start : ℕ
  recovery_rate : ℚ
deriving DecidableEq, Repr

/-- Modelled from the spec: rule parameters of a ScenarioConfig (section 3);
the backend `sim/` package holding this type is not in the repository. -/
structure RuleSpec where
  tariff : ℚ
  route_capacity : ℚ
  storage_cap : ℚ
  demand_elasticity : ℚ
  subsidy_rate : ℚ
deriving DecidableEq, Repr

/-- Agent selector of a ScenarioConfig: the rule-based heuristic or the
recurrent belief-inference policy. -/
inductive AgentKind where
  | heuristic : AgentKind
  | belief : AgentKind
deriving DecidableEq, Repr

/-- Modelled from the spec: the immutable simulation input (section 3);
the backend `api/schemas.py` and `sim/` packages holding this type are not
in the repository. -/
structure ScenarioConfig where
  n_firms : ℕ
  horizon : ℕ
  seed : ℕ
  shock : ShockSpec
  rules : RuleSpec
  agent : AgentKind
deriving DecidableEq, Repr

/-- Validation constraints on a ScenarioConfig, from the accepted-ranges
table of section 6 together with the section 3 invariant that rates are
non-negative and magnitude is in [0,1]. -/
def ValidConfig (c : ScenarioConfig) : Prop :=
  2 ≤ c.n_firms ∧ 1 ≤ c.horizon ∧
  0 ≤ c.shock.magnitude ∧ c.shock.magnitude ≤ 1 ∧ 0 ≤ c.shock.recovery_rate ∧
  0 ≤ c.rules.tariff ∧ 0 < c.rules.route_capacity ∧
  0 < c.rules.storage_cap ∧ 0 < c.rules.demand_elasticity

instance (c : ScenarioConfig) : Decidable (ValidConfig c) := by
  unfold ValidConfig; infer_instance

/-- Modelled from the spec: the Shock Model (section 4.1); the backend
`sim/` module implementing it is not in the repository.  The supply
multiplier is 1 before the shock window, 1 - magnitude inside
[start, start+duration), and after the window the remaining deficit decays
geometrically at `recovery_rate` per period, clamped to 1. -/
def shockMultiplier (s : ShockSpec) : ℕ → ℚ
  | 0 => if s.start = 0 ∧ 0 < s.duration then 1 - s.magnitude else 1
  | t + 1 =>
      if t + 1 < s.start then 1
      else if t + 1 < s.start + s.duration then 1 - s.magnitude
      else min 1 (shockMultiplier s t + s.recovery_rate * (1 - shockMultiplier s t))

/-- The shock multiplier stays in [0,1] whenever magnitude is in [0,1] and
the recovery rate is non-negative. -/
lemma shockMultiplier_mem (s : ShockSpec) (h0 : 0 ≤ s.magnitude) (h1 : s.magnitude ≤ 1)
    (hr : 0 ≤ s.recovery_rate) : ∀ t, 0 ≤ shockMultiplier s t ∧ shockMultiplier s t ≤ 1 := by
  intro t
  induction t with
  | zero =>
      simp only [shockMultiplier]
      split_ifs
      · constructor <;> linarith
      · constructor <;> linarith
  | succ t ih =>
      simp only [shockMultiplier]
      split_ifs
      · constructor <;> linarith
      · constructor <;> linarith
      · refine ⟨le_min (by linarith) ?_, min_le_left _ _⟩
        nlinarith [ih.1, ih.2]

/-- With duration 0 the shock window is empty and the multiplier is 1 at
every period. -/
lemma shockMultiplier_duration_zero (s : ShockSpec) (hd : s.duration = 0) :
    ∀ t, shockMultiplier s t = 1 := by
  intro t
  induction t with
  | zero => simp [shockMultiplier, hd]
  | succ t ih =>
      simp only [shockMultiplier, hd, Nat.add_zero]
      split_ifs with h1
      · rfl
      · rw [ih]; simp

/-- C4: at every period the Shock Model's supply multiplier is 1 before the
window [start, start+duration), is 1 - magnitude inside the window, and
after the window moves toward 1 by the geometric recovery step
m ↦ min 1 (m + recovery_rate * (1 - m)); with duration 0 it is 1 at every
period. -/
theorem shock_multiplier_regimes (s : ShockSpec) :
    (∀ t, t < s.start → shockMultiplier s t = 1) ∧
    (∀ t, s.start ≤ t → t < s.start + s.duration → shockMultiplier s t = 1 - s.magnitude) ∧
    (∀ t, s.start + s.duration ≤ t + 1 →
      shockMultiplier s (t + 1) =
        min 1 (shockMultiplier s t + s.recovery_rate * (1 - shockMultiplier s t))) ∧
    (s.duration = 0 → ∀ t, shockMultiplier s t = 1) := by
  refine ⟨?_, ?_, ?_, shockMultiplier_duration_zero s⟩
  · intro t ht
    cases t with
    | zero =>
        simp only [shockMultiplier]
        rw [if_neg]
        rintro ⟨h0, _⟩
        omega
    | succ t => simp only [shockMultiplier]; rw [if_pos ht]
  · intro t h1 h2
    cases t with
    | zero =>
        simp only [shockMultiplier]
        rw [if_pos]
        exact ⟨Nat.le_zero.mp h1, by omega⟩
    | succ t =>
        simp only [shockMultiplier]
        rw [if_neg (by omega), if_pos h2]
  · intro t ht
    simp only [shockMultiplier]
    rw [if_neg (by omega), if_neg (by omega)]

/-- Witness for C4: concrete evaluations of every regime of the shock
multiplier on the shock spec (magnitude 2/5, duration 3, start 5,
recovery rate 1/2) and its duration-0 variant. -/
theorem shock_multiplier_regimes_witness :
    (2 : ℕ) < 5 ∧ (5 : ℕ) ≤ 6 ∧ (6 : ℕ) < 5 + 3 ∧ (5 : ℕ) + 3 ≤ 8 + 1 ∧
    shockMultiplier ⟨2/5, 3, 5, 1/2⟩ 2 = 1 ∧
    shockMultiplier ⟨2/5, 3, 5, 1/2⟩ 6 = 1 - 2/5 ∧
    shockMultiplier ⟨2/5, 3, 5, 1/2⟩ 9 =
      min 1 (shockMultiplier ⟨2/5, 3, 5, 1/2⟩ 8 +
        1/2 * (1 - shockMultiplier ⟨2/5, 3, 5, 1/2⟩ 8)) ∧
    shockMultiplier ⟨2/5, 0, 5, 1/2⟩ 7 = 1 := by
  refine ⟨by decide, by decide, by decide, by decide, ?_, ?_, ?_, ?_⟩
  · exact (shock_multiplier_regimes ⟨2/5, 3, 5, 1/2⟩).1 2 (by decide)
  · exact (shock_multiplier_regimes ⟨2/5, 3, 5, 1/2⟩).2.1 6 (by decide) (by decide)
  · exact (shock_multiplier_regimes ⟨2/5, 3, 5, 1/2⟩).2.2.1 8 (by decide)
  · exact (shock_multiplier_regimes ⟨2/5, 0, 5, 1/2⟩).2.2.2 rfl 7

/-- Base production capacity of a single firm, the reference scale of the
modelled market (the storage bound of section 4.5 is storage_cap times this
base capacity). -/
def baseCapacity : ℚ := 10

/-- Fraction of true supply used as the spread of the public supply-signal
noise (section 4.2: the standard deviation is a fixed fraction of true
supply). -/
def noiseFrac : ℚ := 1/10

/-- Sensitivity of the heuristic production target to perceived scarcity
(section 4.3: production scales inversely with perceived scarcity). -/
def kProd : ℚ := 1/2

/-- Sensitivity of the heuristic price to perceived scarcity (section 4.3:
price increases under perceived scarcity). -/
def kPrice : ℚ := 1/2

/-- Sensitivity of the heuristic price to route-capacity slack (section
4.3: price decreases with route-capacity slack). -/
def kSlack : ℚ := 1/10

/-- Reference markup of the heuristic price over the reference cost. -/
def markup : ℚ := 1/5

/-- Reference marginal cost (section 4.3 and 4.7). -/
def refCost : ℚ := 1

/-- Lower clamp of the heuristic price band (section 4.3: price is clamped
to keep the firm within bounds). -/
def priceMin : ℚ := 1/2

/-- Upper clamp of the heuristic price band. -/
def priceMax : ℚ := 3

/-- Clamp a rational into the interval [lo, hi]. -/
def clampQ (lo hi x : ℚ) : ℚ := max lo (min hi x)

/-- Modelled from the spec: the per-rollout deterministic random stream
(section 5), seeded from the ScenarioConfig seed; the backend module
implementing it is not in the repository.  A linear congruential step on
32-bit naturals. -/
def lcg (s : ℕ) : ℕ := (1664525 * s + 1013904223) % 4294967296

/-- Map an rng state to a zero-centred draw in [-1, 1]. -/
def noiseDraw (s : ℕ) : ℚ := ((s % 201 : ℕ) : ℚ) / 100 - 1

/-- Reference aggregate supply of a scenario: every firm producing at base
capacity. -/
def refSupply (c : ScenarioConfig) : ℚ := (c.n_firms : ℚ) * baseCapacity

/-- Reference aggregate demand of a scenario, matching the reference supply
at the reference price. -/
def demandRef (c : ScenarioConfig) : ℚ := (c.n_firms : ℚ) * baseCapacity

/-- Modelled from the spec: the mutable per-rollout state threaded by the
Rollout Orchestrator (sections 3 and 4.6); the backend module implementing
it is not in the repository.  Firms are symmetric: identical
initialization, the identical heuristic policy, and the public shared
supply signal give every firm the same state, so the common per-firm state
is stored once. -/
structure SimState where
  inventory : ℚ
  prevSupply : ℚ
  rng : ℕ
deriving DecidableEq, Repr

/-- Modelled from the spec: one per-period Trajectory entry (section 3),
a snapshot of the common per-firm state and the MarketState; the backend
module implementing it is not in the repository. -/
structure Snapshot where
  t : ℕ
  price : ℚ
  production : ℚ
  sales : ℚ
  inventory : ℚ
  supply_true : ℚ
  demand : ℚ
  price_index : ℚ
  fill_ratio : ℚ
  degenerate : Bool
deriving DecidableEq, Repr, Inhabited

/-- Noise draw of the current period, advanced from the threaded rng
state. -/
def etaOf (st : SimState) : ℚ := noiseDraw (lcg st.rng)

/-- Observation Generator (section 4.2): last period's true supply
perturbed by the seeded public noise draw. -/
def obsOf (st : SimState) : ℚ := st.prevSupply * (1 + noiseFrac * etaOf st)

/-- Perceived scarcity of the heuristic (section 4.3): observed supply
relative to the reference baseline, floored at 0. -/
def scarcityOf (c : ScenarioConfig) (st : SimState) : ℚ :=
  max 0 (1 - obsOf st / refSupply c)

/-- Heuristic production target (section 4.3): scales inversely with
perceived scarcity and is capped by storage capacity. -/
def prodOf (c : ScenarioConfig) (st : SimState) : ℚ :=
  min (c.rules.storage_cap * baseCapacity) (baseCapacity * max 0 (1 - kProd * scarcityOf c st))

/-- Heuristic price (section 4.3): a markup over the reference cost that
rises with perceived scarcity and falls with route-capacity slack, clamped
to the price band. -/
def priceOf (c : ScenarioConfig) (st : SimState) : ℚ :=
  clampQ priceMin priceMax
    (refCost * (1 + markup + kPrice * scarcityOf c st
      - kSlack * max 0 (c.rules.route_capacity - 1)))

/-- Realized true supply (section 4.5 step 1): summed firm production
scaled by the shock multiplier and by route capacity. -/
def supplyOf (c : ScenarioConfig) (t : ℕ) (st : SimState) : ℚ :=
  (c.n_firms : ℚ) * prodOf c st * shockMultiplier c.shock t * min 1 c.rules.route_capacity

/-- Demand (section 4.5 step 2): the reference demand curve at the
tariff-adjusted price index, with demand_elasticity as its slope
(linearized so it stays within rational arithmetic); it can evaluate to
zero or below in degenerate elasticity/price combinations. -/
def demandOf (c : ScenarioConfig) (st : SimState) : ℚ :=
  demandRef c * (1 - c.rules.demand_elasticity * (priceOf c st * (1 + c.rules.tariff) - 1))

/-- Fill ratio (section 4.5 step 3): min 1 (supply/demand), with the
degenerate non-positive-demand case defined as 1 (section 4.5 failure
clause). -/
def fillOf (c : ScenarioConfig) (t : ℕ) (st : SimState) : ℚ :=
  if demandOf c st ≤ 0 then 1 else min 1 (supplyOf c t st / demandOf c st)

/-- Per-firm sales (section 4.5 step 3): the equal pro-rata share of the
realized trade volume. -/
def salesOf (c : ScenarioConfig) (t : ℕ) (st : SimState) : ℚ :=
  fillOf c t st * max 0 (demandOf c st) / (c.n_firms : ℚ)

/-- Post-clearing inventory (section 4.5 step 4): inventory plus
production minus sales, clamped into [0, storage_cap * baseCapacity]. -/
def invOf (c : ScenarioConfig) (t : ℕ) (st : SimState) : ℚ :=
  clampQ 0 (c.rules.storage_cap * baseCapacity) (st.inventory + prodOf c st - salesOf c t st)

/-- Modelled from the spec: one period of the rollout loop (sections 4.2,
4.3, 4.5, 4.6) — shock, observation, heuristic decision, market clearing —
assembled from the component functions above; the backend modules
implementing these are not in the repository. -/
def step (c : ScenarioConfig) (t : ℕ) (st : SimState) : SimState × Snapshot :=
  ({ inventory := invOf c t st, prevSupply := supplyOf c t st, rng := lcg st.rng },
   { t := t, price := priceOf c st, production := prodOf c st, sales := salesOf c t st,
     inventory := invOf c t st, supply_true := supplyOf c t st, demand := demandOf c st,
     price_index := priceOf c st, fill_ratio := fillOf c t st,
     degenerate := decide (demandOf c st ≤ 0) })

/-- Modelled from the spec: the Rollout Orchestrator loop (section 4.6)
over a list of period indices, threading the state and accumulating one
snapshot per period; the backend module implementing it is not in the
repository. -/
def runFrom (c : ScenarioConfig) : SimState → List ℕ → List Snapshot
  | _, [] => []
  | st, t :: ts => (step c t st).2 :: runFrom c (step c t st).1 ts

/-- Initial rollout state (section 4.6): empty inventory, reference supply
as the pre-rollout market level, rng seeded from the config. -/
def initState (c : ScenarioConfig) : SimState :=
  { inventory := 0, prevSupply := refSupply c, rng := c.seed }

/-- The full Trajectory of a scenario: one snapshot per period
0 .. horizon-1, in period order. -/
def trajectory (c : ScenarioConfig) : List Snapshot :=
  runFrom c (initState c) (List.range c.horizon)

/-- The orchestrator produces exactly one snapshot per requested period. -/
lemma runFrom_length (c : ScenarioConfig) (st : SimState) (ts : List ℕ) :
    (runFrom c st ts).length = ts.length := by
  induction ts generalizing st with
  | nil => rfl
  | cons t ts ih => simp [runFrom, ih]

/-- The i-th snapshot records the i-th requested period index. -/
lemma runFrom_t (c : ScenarioConfig) (st : SimState) (ts : List ℕ) (i : ℕ) (hi : i < ts.length) :
    ((runFrom c st ts).getD i default).t = ts.getD i 0 := by
  induction ts generalizing st i with
  | nil => simp at hi
  | cons t ts ih =>
      cases i with
      | zero => simp [runFrom, step]
      | succ i =>
          simp only [runFrom, List.getD_cons_succ]
          exact ih _ i (by simpa using hi)

/-- The trajectory has exactly `horizon` entries. -/
lemma trajectory_length (c : ScenarioConfig) : (trajectory c).length = c.horizon := by
  simp [trajectory, runFrom_length]

/-- Entry i of the trajectory is the snapshot of period i. -/
lemma trajectory_t (c : ScenarioConfig) (i : ℕ) (hi : i < c.horizon) :
    ((trajectory c).getD i default).t = i := by
  have h := runFrom_t c (initState c) (List.range c.horizon) i (by simpa using hi)
  simpa [trajectory, List.getD_eq_getElem?_getD, hi] using h

/-- Sum of squares of a list of rationals. -/
def sumSq (xs : List ℚ) : ℚ := (xs.map (fun x => x * x)).sum

/-- Zero-scarcity equilibrium price of a scenario: the heuristic price at
perceived scarcity 0, the pre-shock reference level of section 4.8. -/
def pRef (c : ScenarioConfig) : ℚ :=
  clampQ priceMin priceMax (refCost * (1 + markup - kSlack * max 0 (c.rules.route_capacity - 1)))

/-- Zero-scarcity production level of a scenario: base capacity capped by
the storage bound. -/
def prodCap (c : ScenarioConfig) : ℚ := min (c.rules.storage_cap * baseCapacity) baseCapacity

/-- Modelled from the spec: price-index volatility of the Metrics Engine
(section 4.8), the mean squared deviation of the price index from the
pre-shock reference level; the backend module implementing it is not in
the repository. -/
def priceVol (c : ScenarioConfig) : ℚ :=
  sumSq ((trajectory c).map (fun s => s.price_index - pRef c)) / (c.horizon : ℚ)

/-- Modelled from the spec: production volatility of the Metrics Engine
(section 4.8), the mean squared production shortfall from the
zero-scarcity production level. -/
def prodVol (c : ScenarioConfig) : ℚ :=
  sumSq ((trajectory c).map (fun s => prodCap c - s.production)) / (c.horizon : ℚ)

/-- Modelled from the spec: demand-shortfall volatility of the Metrics
Engine (section 4.8), the mean squared shortfall of realized supply below
the reference demand level. -/
def shortVol (c : ScenarioConfig) : ℚ :=
  sumSq ((trajectory c).map (fun s => max 0 (demandRef c - s.supply_true))) / (c.horizon : ℚ)

/-- Normalization ceiling of the price volatility, the squared width of
the price band. -/
def priceVolScale : ℚ := (priceMax - priceMin) * (priceMax - priceMin)

/-- Price stability component: 1 minus normalized price volatility,
in [0,1]. -/
def priceComponent (c : ScenarioConfig) : ℚ := 1 - min 1 (priceVol c / priceVolScale)

/-- Production stability component: 1 minus normalized production
volatility, in [0,1]. -/
def prodComponent (c : ScenarioConfig) : ℚ :=
  1 - min 1 (prodVol c / (baseCapacity * baseCapacity))

/-- Demand-shortfall stability component: 1 minus normalized shortfall
volatility, in [0,1]. -/
def demandComponent (c : ScenarioConfig) : ℚ :=
  1 - min 1 (shortVol c / (demandRef c * demandRef c))

/-- Fixed weight of the price component in the stability score. -/
def wPriceStab : ℚ := 4/10

/-- Fixed weight of the production component in the stability score. -/
def wProdStab : ℚ := 3/10

/-- Fixed weight of the demand-shortfall component in the stability
score. -/
def wDemStab : ℚ := 3/10

/-- Modelled from the spec: the stability score of the Metrics Engine
(section 4.8), a fixed weighted sum of the three components clamped to
[0,1]; the backend module implementing it is not in the repository. -/
def stability (c : ScenarioConfig) : ℚ :=
  clampQ 0 1
    (wPriceStab * priceComponent c + wProdStab * prodComponent c + wDemStab * demandComponent c)

/-- Modelled from the spec: the welfare proxy of the Metrics Engine
(section 4.8), total realized trade value minus a scarcity penalty for
unmet demand minus tariff deadweight loss; the backend module implementing
it is not in the repository. -/
def welfare (c : ScenarioConfig) : ℚ :=
  ((trajectory c).map (fun s =>
    (c.n_firms : ℚ) * s.sales * s.price_index - max 0 (s.demand - s.supply_true)
      - c.rules.tariff * (c.n_firms : ℚ) * s.sales)).sum

/-- Index of the first element satisfying the predicate, if any. -/
def firstHit (pred : ℚ → Bool) : List ℚ → Option ℕ
  | [] => none
  | x :: xs => if pred x then some 0 else (firstHit pred xs).map (fun k => k + 1)

/-- First period after the shock window. -/
def shockEnd (c : ScenarioConfig) : ℕ := c.shock.start + c.shock.duration

/-- Fixed tolerance band of the adaptation-speed metric (section 4.8). -/
def tolAdapt : ℚ := 1/10

/-- Whether a price has returned within the tolerance band of the
pre-shock reference level. -/
def recovered (c : ScenarioConfig) (p : ℚ) : Bool := decide (|p - pRef c| ≤ tolAdapt)

/-- Price-index series restricted to the periods after the shock window. -/
def postShockPrices (c : ScenarioConfig) : List ℚ :=
  ((trajectory c).map (fun s => s.price_index)).drop (shockEnd c)

/-- Modelled from the spec: the adaptation-speed metric of the Metrics
Engine (section 4.8) — periods after shock end until the price index
returns within tolerance of its pre-shock level, or the horizon as a
finite ceiling when it never returns; the backend module implementing it
is not in the repository. -/
def adaptSpeed (c : ScenarioConfig) : ℕ :=
  match firstHit (recovered c) (postShockPrices c) with
  | some k => k
  | none => c.horizon

/-- Arithmetic mean of a list of rationals (0 on the empty list). -/
def mean (xs : List ℚ) : ℚ := xs.sum / (xs.length : ℚ)

/-- Deviations of a list from its mean. -/
def devs (xs : List ℚ) : List ℚ := xs.map (fun x => x - mean xs)

/-- Modelled from the spec: pairwise correlation of two price series
(section 4.7), in [-1,1].  To stay within rational arithmetic the
covariance is normalized by the arithmetic mean of the two variances
(which dominates their geometric mean), and the degenerate zero-variance
case falls back to 1 as section 7 prescribes a defined fallback for
division by zero in correlation computations. -/
def corrRaw (xs ys : List ℚ) : ℚ :=
  let dx := devs xs
  let dy := devs ys
  if sumSq dx + sumSq dy = 0 then 1
  else 2 * (List.zipWith (fun a b => a * b) dx dy).sum / (sumSq dx + sumSq dy)

/-- Price-correlation sub-signal: the correlation rescaled from [-1,1] to
[0,1] (section 4.7). -/
def corrSignal (xs ys : List ℚ) : ℚ := (corrRaw xs ys + 1) / 2

/-- Production level below which a period counts as throttled. -/
def throttleCut : ℚ := 9 * baseCapacity / 10

/-- Modelled from the spec: the synchronized-throttling sub-signal
(section 4.7), the fraction of periods in which the (symmetric) firms
produce below baseline simultaneously, normalized by the horizon; the
backend module implementing it is not in the repository. -/
def throttlingSignal (c : ScenarioConfig) : ℚ :=
  (((trajectory c).filter (fun s => decide (s.production < throttleCut))).length : ℚ)
    / (c.horizon : ℚ)

/-- Plausible competitive-margin ceiling normalizing the margin
sub-signal (section 4.7). -/
def marginCeiling : ℚ := 2

/-- Modelled from the spec: the margin-under-scarcity sub-signal (section
4.7), average margin over the reference cost during periods of active
scarcity (fill ratio below 1), normalized by the competitive-margin
ceiling and clamped to [0,1]; 0 when no scarcity period exists; the
backend module implementing it is not in the repository. -/
def marginSignal (c : ScenarioConfig) : ℚ :=
  let ms := ((trajectory c).filter (fun s => decide (s.fill_ratio < 1))).map
    (fun s => s.price - refCost)
  if ms.length = 0 then 0 else clampQ 0 1 (ms.sum / (ms.length : ℚ) / marginCeiling)

/-- Fixed weight of the price-correlation sub-signal, the strictly
highest of the three (section 4.7). -/
def wCorr : ℚ := 1/2

/-- Fixed weight of the throttling sub-signal. -/
def wThrottle : ℚ := 1/4

/-- Fixed weight of the margin sub-signal. -/
def wMargin : ℚ := 1/4

/-- The CartelSignals record of the frontend type declarations
(src/frontend/src/types/simulation.ts). -/
structure CartelSignals where
  cartel_likelihood : ℚ
  price_correlation_signal : ℚ
  throttling_signal : ℚ
  margin_signal : ℚ
deriving DecidableEq, Repr

/-- Modelled from the spec: the Cartel Detector (section 4.7) applied to a
completed trajectory; the backend module implementing it is not in the
repository.  Firms are symmetric, so every pairwise price correlation is
the self-correlation of the common price series. -/
def cartelSignals (c : ScenarioConfig) : CartelSignals :=
  let prices := (trajectory c).map (fun s => s.price)
  let pc := corrSignal prices prices
  let th := throttlingSignal c
  let mg := marginSignal c
  { cartel_likelihood := wCorr * pc + wThrottle * th + wMargin * mg,
    price_correlation_signal := pc, throttling_signal := th, margin_signal := mg }

/-- The StabilityBreakdown record of the frontend type declarations. -/
structure StabilityBreakdown where
  overall : ℚ
  price_component : ℚ
  production_component : ℚ
  demand_component : ℚ
deriving DecidableEq, Repr

/-- The MetricsResult produced by the Metrics Engine (sections 3 and
4.8). -/
structure MetricsResult where
  stability : ℚ
  stability_breakdown : StabilityBreakdown
  welfare : ℚ
  cartel_likelihood : ℚ
  adapt_speed : ℕ
deriving DecidableEq, Repr

/-- The Trajectory, CartelSignal, MetricsResult triple returned by the
core (section 6). -/
structure RunOutput where
  trajectory : List Snapshot
  cartel : CartelSignals
  metrics : MetricsResult
deriving DecidableEq, Repr

/-- Modelled from the spec: the primary operation of the core (section 6),
`run(config) -> Trajectory + CartelSignal + MetricsResult`; the backend
module implementing it is not in the repository.  The policy capability is
instantiated with the auditable Heuristic Policy, the frozen
belief-inference weight artifact being external to the repository. -/
def run (c : ScenarioConfig) : RunOutput :=
  { trajectory := trajectory c,
    cartel := cartelSignals c,
    metrics :=
      { stability := stability c,
        stability_breakdown :=
          { overall := stability c, price_component := priceComponent c,
            production_component := prodComponent c, demand_component := demandComponent c },
        welfare := welfare c,
        cartel_likelihood := (cartelSignals c).cartel_likelihood,
        adapt_speed := adaptSpeed c } }

/-- Clamping lands in the target interval whenever it is non-empty. -/
lemma clampQ_mem (lo hi x : ℚ) (h : lo ≤ hi) : lo ≤ clampQ lo hi x ∧ clampQ lo hi x ≤ hi :=
  ⟨le_max_left _ _, max_le h (min_le_left _ _)⟩

/-- A sum of squares is non-negative. -/
lemma sumSq_nonneg (xs : List ℚ) : 0 ≤ sumSq xs := by
  refine List.sum_nonneg ?_
  intro x hx
  obtain ⟨y, _, rfl⟩ := List.mem_map.mp hx
  exact mul_self_nonneg y

/-- Every snapshot of a rollout segment is produced by the clearing step. -/
lemma mem_runFrom (c : ScenarioConfig) (st : SimState) (ts : List ℕ) :
    ∀ s ∈ runFrom c st ts, ∃ t st0, s = (step c t st0).2 := by
  induction ts generalizing st with
  | nil => intro s hs; simp [runFrom] at hs
  | cons t ts ih =>
      intro s hs
      rcases List.mem_cons.mp hs with h | h
      · exact ⟨t, st, h⟩
      · exact ih _ s h

/-- The realized production of a clearing step is non-negative and at most
the storage bound. -/
lemma step_production_mem (c : ScenarioConfig) (h : ValidConfig c) (t : ℕ) (st : SimState) :
    0 ≤ (step c t st).2.production ∧
      (step c t st).2.production ≤ c.rules.storage_cap * baseCapacity := by
  obtain ⟨-, -, -, -, -, -, -, hsto, -⟩ := h
  have hb : (0 : ℚ) < baseCapacity := by norm_num [baseCapacity]
  simp only [step]
  constructor
  · exact le_min (by positivity) (by positivity)
  · exact min_le_left _ _

/-- The realized true supply of a clearing step is non-negative under a
valid config. -/
lemma step_supply_nonneg (c : ScenarioConfig) (h : ValidConfig c) (t : ℕ) (st : SimState) :
    0 ≤ (step c t st).2.supply_true := by
  obtain ⟨-, -, hm0, hm1, hr, -, hrc, hsto, -⟩ := h
  have hmult := (shockMultiplier_mem c.shock hm0 hm1 hr t).1
  have hb : (0 : ℚ) < baseCapacity := by norm_num [baseCapacity]
  have h1 : (0 : ℚ) ≤ (c.n_firms : ℚ) := by positivity
  have h2 : (0 : ℚ) ≤ min 1 c.rules.route_capacity := le_min (by norm_num) (le_of_lt hrc)
  simp only [step]
  refine mul_nonneg (mul_nonneg (mul_nonneg h1 ?_) hmult) h2
  exact le_min (mul_nonneg (le_of_lt hsto) (le_of_lt hb))
    (mul_nonneg (le_of_lt hb) (le_max_left 0 _))

/-- C1: the whole rollout is a deterministic function of the scenario
config: two invocations of `run` on configs that agree field-by-field
(including the seed) return identical RunOutputs, hence identical
Trajectory, CartelSignal and MetricsResult values. -/
theorem run_deterministic (c₁ c₂ : ScenarioConfig)
    (h : c₁.n_firms = c₂.n_firms ∧ c₁.horizon = c₂.horizon ∧ c₁.seed = c₂.seed ∧
      c₁.shock.magnitude = c₂.shock.magnitude ∧ c₁.shock.duration = c₂.shock.duration ∧
      c₁.shock.start = c₂.shock.start ∧ c₁.shock.recovery_rate = c₂.shock.recovery_rate ∧
      c₁.rules.tariff = c₂.rules.tariff ∧ c₁.rules.route_capacity = c₂.rules.route_capacity ∧
      c₁.rules.storage_cap = c₂.rules.storage_cap ∧
      c₁.rules.demand_elasticity = c₂.rules.demand_elasticity ∧
      c₁.rules.subsidy_rate = c₂.rules.subsidy_rate ∧ c₁.agent = c₂.agent) :
    run c₁ = run c₂ ∧ (run c₁).trajectory = (run c₂).trajectory ∧
      (run c₁).cartel = (run c₂).cartel ∧ (run c₁).metrics = (run c₂).metrics := by
  have hc : c₁ = c₂ := by
    obtain ⟨n1, hz1, s1, sh1, ru1, a1⟩ := c₁
    obtain ⟨n2, hz2, s2, sh2, ru2, a2⟩ := c₂
    obtain ⟨m1, d1, st1, r1⟩ := sh1
    obtain ⟨m2, d2, st2, r2⟩ := sh2
    obtain ⟨t1, rc1, sc1, de1, su1⟩ := ru1
    obtain ⟨t2, rc2, sc2, de2, su2⟩ := ru2
    obtain ⟨e1, e2, e3, e4, e5, e6, e7, e8, e9, e10, e11, e12, e13⟩ := h
    simp only [ScenarioConfig.mk.injEq, ShockSpec.mk.injEq, RuleSpec.mk.injEq]
    exact ⟨e1, e2, e3, ⟨e4, e5, e6, e7⟩, ⟨e8, e9, e10, e11, e12⟩, e13⟩
  subst hc
  exact ⟨rfl, rfl, rfl, rfl⟩

/-- Concrete scenario used by the witnesses: 3 firms, horizon 6, seed 7,
a shock of magnitude 2/5 over periods [1,3), baseline rules. -/
def cfgA : ScenarioConfig :=
  { n_firms := 3, horizon := 6, seed := 7,
    shock := { magnitude := 2/5, duration := 2, start := 1, recovery_rate := 1/2 },
    rules := { tariff := 1/20, route_capacity := 1, storage_cap := 1,
               demand_elasticity := 6/5, subsidy_rate := 0 },
    agent := AgentKind.heuristic }

/-- Witness for C1: two separately written but field-identical configs give
identical outputs. -/
theorem run_deterministic_witness :
    run cfgA =
      run { n_firms := 3, horizon := 6, seed := 7,
            shock := { magnitude := 2/5, duration := 2, start := 1, recovery_rate := 1/2 },
            rules := { tariff := 1/20, route_capacity := 1, storage_cap := 1,
                       demand_elasticity := 6/5, subsidy_rate := 0 },
            agent := AgentKind.heuristic } :=
  (run_deterministic cfgA _
    ⟨rfl, rfl, rfl, rfl, rfl, rfl, rfl, rfl, rfl, rfl, rfl, rfl, rfl⟩).1

/-- C5: a completed rollout with horizon at least 1 produces a Trajectory
of exactly `horizon` per-period entries, the i-th entry being the snapshot
of period i (insertion order equals period order). -/
theorem trajectory_shape (c : ScenarioConfig) (h : 1 ≤ c.horizon) :
    (run c).trajectory.length = c.horizon ∧
      ∀ i, i < c.horizon → (((run c).trajectory).getD i default).t = i := by
  refine ⟨trajectory_length c, fun i hi => trajectory_t c i hi⟩

/-- Witness for C5: the concrete scenario has a 6-entry trajectory whose
entries carry their period indices. -/
theorem trajectory_shape_witness :
    1 ≤ cfgA.horizon ∧
      ((run cfgA).trajectory.length = cfgA.horizon ∧
        ∀ i, i < cfgA.horizon → (((run cfgA).trajectory).getD i default).t = i) :=
  ⟨by decide, trajectory_shape cfgA (by decide)⟩

/-- C2: market clearing updates inventory by adding production, removing
sales, and clamping into [0, storage_cap * baseCapacity] (excess
production is discarded by the clamp), so every per-period inventory of a
completed rollout lies in [0, storage_cap * baseCapacity]. -/
theorem inventory_clamped (c : ScenarioConfig) (h : ValidConfig c) :
    (∀ t st,
      (step c t st).1.inventory =
        max 0 (min (c.rules.storage_cap * baseCapacity)
          (st.inventory + (step c t st).2.production - (step c t st).2.sales)) ∧
      (step c t st).2.inventory = (step c t st).1.inventory) ∧
    ∀ s ∈ (run c).trajectory,
      0 ≤ s.inventory ∧ s.inventory ≤ c.rules.storage_cap * baseCapacity := by
  obtain ⟨-, -, -, -, -, -, -, hsto, -⟩ := h
  have hcap : (0 : ℚ) ≤ c.rules.storage_cap * baseCapacity := by
    have : (0 : ℚ) < baseCapacity := by norm_num [baseCapacity]
    positivity
  constructor
  · intro t st
    constructor
    · simp [step, invOf, clampQ]
    · simp [step]
  · intro s hs
    obtain ⟨t, st0, rfl⟩ := mem_runFrom c (initState c) (List.range c.horizon) s hs
    have : (step c t st0).2.inventory = clampQ 0 (c.rules.storage_cap * baseCapacity)
        (st0.inventory + (step c t st0).2.production - (step c t st0).2.sales) := by
      simp [step, invOf, clampQ]
    rw [this]
    exact clampQ_mem _ _ _ hcap

/-- Witness for C2: the concrete scenario satisfies the validation
constraints and hence keeps every inventory inside the storage band. -/
theorem inventory_clamped_witness :
    ValidConfig cfgA ∧
      ∀ s ∈ (run cfgA).trajectory,
        0 ≤ s.inventory ∧ s.inventory ≤ cfgA.rules.storage_cap * baseCapacity :=
  ⟨by norm_num [ValidConfig, cfgA], (inventory_clamped cfgA (by norm_num [ValidConfig, cfgA])).2⟩

/-- C3: in every clearing period, non-positive demand makes the fill ratio
1 with the diagnostic degeneracy flag set (the computation is total, so no
exception arises), positive demand makes the fill ratio
min 1 (supply/demand) with the flag clear, and along a completed rollout
the fill ratio always lies in [0,1]. -/
theorem fill_ratio_spec (c : ScenarioConfig) (h : ValidConfig c) :
    (∀ t st,
      ((step c t st).2.demand ≤ 0 →
        (step c t st).2.fill_ratio = 1 ∧ (step c t st).2.degenerate = true) ∧
      (0 < (step c t st).2.demand →
        (step c t st).2.fill_ratio =
            min 1 ((step c t st).2.supply_true / (step c t st).2.demand) ∧
          (step c t st).2.degenerate = false)) ∧
    ∀ s ∈ (run c).trajectory, 0 ≤ s.fill_ratio ∧ s.fill_ratio ≤ 1 := by
  have hstep : ∀ t st,
      ((step c t st).2.demand ≤ 0 →
        (step c t st).2.fill_ratio = 1 ∧ (step c t st).2.degenerate = true) ∧
      (0 < (step c t st).2.demand →
        (step c t st).2.fill_ratio =
            min 1 ((step c t st).2.supply_true / (step c t st).2.demand) ∧
          (step c t st).2.degenerate = false) := by
    intro t st
    constructor
    · intro hd
      simp only [step, fillOf] at hd ⊢
      rw [if_pos hd]
      exact ⟨rfl, by simpa using hd⟩
    · intro hd
      simp only [step, fillOf] at hd ⊢
      rw [if_neg (not_le.mpr hd)]
      exact ⟨rfl, by simpa using not_le.mpr hd⟩
  refine ⟨hstep, ?_⟩
  intro s hs
  obtain ⟨t, st0, rfl⟩ := mem_runFrom c (initState c) (List.range c.horizon) s hs
  rcases le_or_lt (step c t st0).2.demand 0 with hd | hd
  · have := ((hstep t st0).1 hd).1
    rw [this]
    norm_num
  · have hfill := ((hstep t st0).2 hd).1
    rw [hfill]
    have hsup := step_supply_nonneg c h t st0
    exact ⟨le_min (by norm_num) (div_nonneg hsup (le_of_lt hd)), min_le_left _ _⟩

/-- Witness for C3: the concrete scenario keeps the fill ratio in [0,1]
and the degenerate branch yields 1 with the flag set. -/
theorem fill_ratio_spec_witness :
    ValidConfig cfgA ∧
      ∀ s ∈ (run cfgA).trajectory, 0 ≤ s.fill_ratio ∧ s.fill_ratio ≤ 1 :=
  ⟨by norm_num [ValidConfig, cfgA], (fill_ratio_spec cfgA (by norm_num [ValidConfig, cfgA])).2⟩

/-- A found first-hit index is in range, satisfies the predicate, and is
the least such index. -/
lemma firstHit_some (pred : ℚ → Bool) :
    ∀ (l : List ℚ) (k : ℕ), firstHit pred l = some k →
      k < l.length ∧ pred (l.getD k 0) = true ∧ ∀ j, j < k → pred (l.getD j 0) = false := by
  intro l
  induction l with
  | nil => intro k hk; simp [firstHit] at hk
  | cons x xs ih =>
      intro k hk
      simp only [firstHit] at hk
      by_cases hx : pred x
      · rw [if_pos hx] at hk
        obtain rfl : k = 0 := by simpa using hk.symm
        exact ⟨by simp, by simpa using hx, fun j hj => absurd hj (Nat.not_lt_zero j)⟩
      · rw [if_neg hx] at hk
        obtain ⟨k0, hk0, rfl⟩ := Option.map_eq_some'.mp hk
        obtain ⟨h1, h2, h3⟩ := ih k0 hk0
        refine ⟨by simpa using Nat.succ_lt_succ h1, by simpa using h2, ?_⟩
        intro j hj
        cases j with
        | zero => simpa using Bool.eq_false_iff.mpr hx
        | succ j => simpa using h3 j (Nat.lt_of_succ_lt_succ hj)

/-- When no first hit exists the predicate fails on every element. -/
lemma firstHit_none (pred : ℚ → Bool) :
    ∀ (l : List ℚ), firstHit pred l = none → ∀ x ∈ l, pred x = false := by
  intro l
  induction l with
  | nil => intro _ x hx; simp at hx
  | cons y ys ih =>
      intro hk x hx
      simp only [firstHit] at hk
      by_cases hy : pred y
      · rw [if_pos hy] at hk; simp at hk
      · rw [if_neg hy] at hk
        rcases List.mem_cons.mp hx with rfl | hmem
        · exact Bool.eq_false_iff.mpr hy
        · exact ih (by simpa using hk) x hmem

/-- The post-shock price list is the trajectory truncated at shock end. -/
lemma postShockPrices_length (c : ScenarioConfig) :
    (postShockPrices c).length = c.horizon - shockEnd c := by
  simp [postShockPrices, trajectory_length]

/-- C7: the reported adaptation speed is the number of periods after shock
end until the price index first returns within the fixed tolerance band of
its pre-shock level (it is the least such count, with the band satisfied
there and violated before), and when the price index never returns within
the horizon the report is the horizon length itself — a finite ceiling —
so adaptation speed never exceeds the horizon. -/
theorem adapt_speed_spec (c : ScenarioConfig) (h : ValidConfig c) :
    (run c).metrics.adapt_speed ≤ c.horizon ∧
    ((∃ j, j < (postShockPrices c).length ∧ recovered c ((postShockPrices c).getD j 0) = true) →
      (run c).metrics.adapt_speed < (postShockPrices c).length ∧
      recovered c ((postShockPrices c).getD ((run c).metrics.adapt_speed) 0) = true ∧
      ∀ j, j < (run c).metrics.adapt_speed →
        recovered c ((postShockPrices c).getD j 0) = false) ∧
    ((∀ j, j < (postShockPrices c).length →
        recovered c ((postShockPrices c).getD j 0) = false) →
      (run c).metrics.adapt_speed = c.horizon) := by
  have hrun : (run c).metrics.adapt_speed = adaptSpeed c := rfl
  rw [hrun]
  unfold adaptSpeed
  rcases hfh : firstHit (recovered c) (postShockPrices c) with _ | k
  · simp only [hfh]
    refine ⟨le_refl _, ?_, fun _ => trivial⟩
    rintro ⟨j, hj, hrec⟩
    have hall := firstHit_none (recovered c) (postShockPrices c) hfh
    have hmem : (postShockPrices c).getD j 0 ∈ postShockPrices c := by
      rw [List.getD_eq_getElem _ _ hj]
      exact List.getElem_mem hj
    rw [hall _ hmem] at hrec
    exact (Bool.false_ne_true hrec).elim
  · simp only [hfh]
    obtain ⟨h1, h2, h3⟩ := firstHit_some (recovered c) (postShockPrices c) k hfh
    refine ⟨?_, fun _ => ⟨h1, h2, h3⟩, ?_⟩
    · have := postShockPrices_length c
      omega
    · intro hall
      rw [hall k (by simpa using h1)] at h2
      exact absurd h2 (by simp)

/-- Witness for C7: on the concrete scenario the adaptation speed is
bounded by the horizon. -/
theorem adapt_speed_spec_witness :
    ValidConfig cfgA ∧ (run cfgA).metrics.adapt_speed ≤ cfgA.horizon :=
  ⟨by norm_num [ValidConfig, cfgA], (adapt_speed_spec cfgA (by norm_num [ValidConfig, cfgA])).1⟩

/-- Sum of squares of a cons cell. -/
lemma sumSq_cons (x : ℚ) (xs : List ℚ) : sumSq (x :: xs) = x * x + sumSq xs := by
  simp [sumSq]

/-- Cauchy-Schwarz style bound: twice the inner product of two lists is
dominated by the sum of their sums of squares. -/
lemma abs_two_zipmul_le :
    ∀ (xs ys : List ℚ),
      |2 * (List.zipWith (fun a b => a * b) xs ys).sum| ≤ sumSq xs + sumSq ys := by
  intro xs
  induction xs with
  | nil =>
      intro ys
      simpa [sumSq] using sumSq_nonneg ys
  | cons x xs ih =>
      intro ys
      cases ys with
      | nil =>
          simpa [sumSq] using add_nonneg (mul_self_nonneg x) (sumSq_nonneg xs)
      | cons y ys =>
          simp only [List.zipWith_cons_cons, List.sum_cons, sumSq_cons]
          obtain ⟨l1, r1⟩ := abs_le.mp (ih ys)
          refine abs_le.mpr ⟨?_, ?_⟩
          · nlinarith [sq_nonneg (x + y)]
          · nlinarith [sq_nonneg (x - y)]

/-- The rational correlation surrogate lies in [-1, 1]. -/
lemma corrRaw_mem (xs ys : List ℚ) : -1 ≤ corrRaw xs ys ∧ corrRaw xs ys ≤ 1 := by
  unfold corrRaw
  dsimp only
  split_ifs with hd
  · norm_num
  · have hnn : 0 ≤ sumSq (devs xs) + sumSq (devs ys) :=
      add_nonneg (sumSq_nonneg _) (sumSq_nonneg _)
    have hd0 : 0 < sumSq (devs xs) + sumSq (devs ys) := lt_of_le_of_ne hnn (Ne.symm hd)
    have habs := abs_two_zipmul_le (devs xs) (devs ys)
    have : |2 * (List.zipWith (fun a b => a * b) (devs xs) (devs ys)).sum /
        (sumSq (devs xs) + sumSq (devs ys))| ≤ 1 := by
      rw [abs_div, abs_of_pos hd0]
      exact div_le_one_of_le habs (le_of_lt hd0)
    exact abs_le.mp this

/-- The price-correlation sub-signal lies in [0, 1]. -/
lemma corrSignal_mem (xs ys : List ℚ) : 0 ≤ corrSignal xs ys ∧ corrSignal xs ys ≤ 1 := by
  obtain ⟨h1, h2⟩ := corrRaw_mem xs ys
  unfold corrSignal
  constructor <;> linarith

/-- The throttling sub-signal lies in [0, 1] whenever the horizon is
positive. -/
lemma throttlingSignal_mem (c : ScenarioConfig) (h : 1 ≤ c.horizon) :
    0 ≤ throttlingSignal c ∧ throttlingSignal c ≤ 1 := by
  unfold throttlingSignal
  have hh : (0 : ℚ) < (c.horizon : ℚ) := by exact_mod_cast Nat.lt_of_lt_of_le Nat.zero_lt_one h
  have hlen : ((trajectory c).filter (fun s => decide (s.production < throttleCut))).length
      ≤ c.horizon := by
    calc ((trajectory c).filter (fun s => decide (s.production < throttleCut))).length
        ≤ (trajectory c).length := List.length_filter_le _ _
      _ = c.horizon := trajectory_length c
  constructor
  · positivity
  · rw [div_le_one hh]
    exact_mod_cast hlen

/-- The margin sub-signal lies in [0, 1]. -/
lemma marginSignal_mem (c : ScenarioConfig) : 0 ≤ marginSignal c ∧ marginSignal c ≤ 1 := by
  unfold marginSignal
  dsimp only
  split_ifs with hlen
  · norm_num
  · exact clampQ_mem 0 1 _ (by norm_num)

/-- C6: the Cartel Detector's three sub-signals each lie in [0,1], and the
aggregate cartel likelihood is the fixed convex combination of the three
with weights wCorr, wThrottle, wMargin — non-negative, summing to 1, the
price-correlation weight strictly the highest — so the aggregate
likelihood also lies in [0,1]. -/
theorem cartel_signals_spec (c : ScenarioConfig) (h : ValidConfig c) :
    (0 ≤ (run c).cartel.price_correlation_signal ∧
      (run c).cartel.price_correlation_signal ≤ 1) ∧
    (0 ≤ (run c).cartel.throttling_signal ∧ (run c).cartel.throttling_signal ≤ 1) ∧
    (0 ≤ (run c).cartel.margin_signal ∧ (run c).cartel.margin_signal ≤ 1) ∧
    (run c).cartel.cartel_likelihood =
      wCorr * (run c).cartel.price_correlation_signal +
        wThrottle * (run c).cartel.throttling_signal +
        wMargin * (run c).cartel.margin_signal ∧
    wCorr + wThrottle + wMargin = 1 ∧
    0 < wThrottle ∧ 0 < wMargin ∧ wThrottle < wCorr ∧ wMargin < wCorr ∧
    0 ≤ (run c).cartel.cartel_likelihood ∧ (run c).cartel.cartel_likelihood ≤ 1 := by
  obtain ⟨-, hh, -⟩ := h
  have hpc := corrSignal_mem ((trajectory c).map (fun s => s.price))
    ((trajectory c).map (fun s => s.price))
  have hth := throttlingSignal_mem c hh
  have hmg := marginSignal_mem c
  have hcar : (run c).cartel = cartelSignals c := rfl
  have h1 : (run c).cartel.price_correlation_signal =
      corrSignal ((trajectory c).map (fun s => s.price)) ((trajectory c).map (fun s => s.price)) :=
    rfl
  have h2 : (run c).cartel.throttling_signal = throttlingSignal c := rfl
  have h3 : (run c).cartel.margin_signal = marginSignal c := rfl
  have h4 : (run c).cartel.cartel_likelihood =
      wCorr * corrSignal ((trajectory c).map (fun s => s.price))
          ((trajectory c).map (fun s => s.price)) +
        wThrottle * throttlingSignal c + wMargin * marginSignal c := rfl
  rw [h1, h2, h3, h4]
  refine ⟨hpc, hth, hmg, rfl, by norm_num [wCorr, wThrottle, wMargin],
    by norm_num [wThrottle], by norm_num [wMargin],
    by norm_num [wThrottle, wCorr], by norm_num [wMargin, wCorr], ?_, ?_⟩
  · norm_num [wCorr, wThrottle, wMargin]
    nlinarith [hpc.1, hth.1, hmg.1]
  · norm_num [wCorr, wThrottle, wMargin]
    nlinarith [hpc.1, hpc.2, hth.1, hth.2, hmg.1, hmg.2]

/-- Witness for C6: the concrete scenario's cartel likelihood is the fixed
convex combination and stays in [0,1]. -/
theorem cartel_signals_spec_witness :
    ValidConfig cfgA ∧
      (0 ≤ (run cfgA).cartel.cartel_likelihood ∧ (run cfgA).cartel.cartel_likelihood ≤ 1) :=
  ⟨by norm_num [ValidConfig, cfgA],
    ⟨(cartel_signals_spec cfgA (by norm_num [ValidConfig, cfgA])).2.2.2.2.2.2.2.2.2.1,
      (cartel_signals_spec cfgA (by norm_num [ValidConfig, cfgA])).2.2.2.2.2.2.2.2.2.2⟩⟩

/-- The same scenario with only the shock magnitude replaced. -/
def setMagnitude (c : ScenarioConfig) (m : ℚ) : ScenarioConfig :=
  { c with shock := { c.shock with magnitude := m } }

/-- Clamping is monotone in its argument. -/
lemma clampQ_mono (lo hi : ℚ) {x y : ℚ} (h : x ≤ y) : clampQ lo hi x ≤ clampQ lo hi y :=
  max_le_max (le_refl lo) (min_le_min (le_refl hi) h)

/-- Noise draws stay in [-1, 1]. -/
lemma noiseDraw_mem (s : ℕ) : -1 ≤ noiseDraw s ∧ noiseDraw s ≤ 1 := by
  unfold noiseDraw
  have h1 : s % 201 < 201 := Nat.mod_lt _ (by norm_num)
  have h2 : ((s % 201 : ℕ) : ℚ) ≤ 200 := by exact_mod_cast Nat.le_of_lt_succ h1
  have h3 : (0 : ℚ) ≤ ((s % 201 : ℕ) : ℚ) := by positivity
  constructor <;> linarith

/-- The clamped geometric recovery step is monotone on [0, 1] for any
non-negative recovery rate. -/
lemma recovery_mono (r a b : ℚ) (hr : 0 ≤ r) (ha : 0 ≤ a) (hb : b ≤ 1) (hab : a ≤ b) :
    min 1 (a + r * (1 - a)) ≤ min 1 (b + r * (1 - b)) := by
  rcases le_or_lt r 1 with h | h
  · exact min_le_min (le_refl 1) (by nlinarith)
  · have hx : (1 : ℚ) ≤ a + r * (1 - a) := by nlinarith
    have hy : (1 : ℚ) ≤ b + r * (1 - b) := by nlinarith
    rw [min_eq_left hx, min_eq_left hy]

/-- A more severe shock magnitude never raises the supply multiplier. -/
lemma shockMultiplier_anti (s : ShockSpec) (m₁ m₂ : ℚ) (h0 : 0 ≤ m₁) (h12 : m₁ ≤ m₂)
    (h1 : m₂ ≤ 1) (hr : 0 ≤ s.recovery_rate) :
    ∀ t, shockMultiplier { s with magnitude := m₂ } t ≤
      shockMultiplier { s with magnitude := m₁ } t := by
  have hmem₁ := shockMultiplier_mem { s with magnitude := m₁ } h0 (h12.trans h1) hr
  have hmem₂ := shockMultiplier_mem { s with magnitude := m₂ } (h0.trans h12) h1 hr
  intro t
  induction t with
  | zero =>
      simp only [shockMultiplier]
      split_ifs
      · linarith
      · linarith
  | succ t ih =>
      simp only [shockMultiplier]
      split_ifs
      · linarith
      · linarith
      · exact recovery_mono s.recovery_rate _ _ hr (hmem₂ t).1 (hmem₁ t).2 ih

/-- The reference supply is positive for a valid config. -/
lemma refSupply_pos (c : ScenarioConfig) (hn : 2 ≤ c.n_firms) : 0 < refSupply c := by
  have : (2 : ℚ) ≤ (c.n_firms : ℚ) := by exact_mod_cast hn
  unfold refSupply baseCapacity
  nlinarith

/-- One-period comparison: from related states (equal rng, dominated
non-negative previous supply), the severe-magnitude run sees the higher
price, the lower production, and the lower (still non-negative) true
supply, with the mild run's price above the reference and its production
below the zero-scarcity cap. -/
lemma step_compare (c : ScenarioConfig) (h : ValidConfig c) (m₁ m₂ : ℚ)
    (h0 : 0 ≤ m₁) (h12 : m₁ ≤ m₂) (h1 : m₂ ≤ 1) (t : ℕ) (st₁ st₂ : SimState)
    (hrng : st₂.rng = st₁.rng) (hs0 : 0 ≤ st₂.prevSupply)
    (hss : st₂.prevSupply ≤ st₁.prevSupply) :
    pRef c ≤ priceOf c st₁ ∧ priceOf c st₁ ≤ priceOf c st₂ ∧
    prodOf c st₂ ≤ prodOf c st₁ ∧ prodOf c st₁ ≤ prodCap c ∧
    0 ≤ supplyOf (setMagnitude c m₂) t st₂ ∧
    supplyOf (setMagnitude c m₂) t st₂ ≤ supplyOf (setMagnitude c m₁) t st₁ := by
  obtain ⟨hn, hh, -, -, hrr, -, hrc, hsto, -⟩ := h
  have href : 0 < refSupply c := refSupply_pos c hn
  have heta : etaOf st₂ = etaOf st₁ := by unfold etaOf; rw [hrng]
  have heta1 := (noiseDraw_mem (lcg st₁.rng)).1
  have hfac : 0 ≤ 1 + noiseFrac * etaOf st₁ := by
    unfold etaOf noiseFrac
    nlinarith [heta1]
  have hobs0 : 0 ≤ obsOf st₂ := by
    unfold obsOf
    rw [heta]
    exact mul_nonneg hs0 hfac
  have hobsle : obsOf st₂ ≤ obsOf st₁ := by
    unfold obsOf
    rw [heta]
    exact mul_le_mul_of_nonneg_right hss hfac
  have hscar : scarcityOf c st₁ ≤ scarcityOf c st₂ := by
    unfold scarcityOf
    refine max_le_max (le_refl 0) ?_
    have hdiv : obsOf st₂ / refSupply c ≤ obsOf st₁ / refSupply c :=
      (div_le_div_right href).mpr hobsle
    linarith
  have hscar1 : 0 ≤ scarcityOf c st₁ := le_max_left 0 _
  have hscar2 : 0 ≤ scarcityOf c st₂ := le_max_left 0 _
  have hb : (0 : ℚ) < baseCapacity := by norm_num [baseCapacity]
  have hkp : (0 : ℚ) ≤ kProd := by norm_num [kProd]
  have hkpr : (0 : ℚ) ≤ kPrice := by norm_num [kPrice]
  have hprodle : prodOf c st₂ ≤ prodOf c st₁ := by
    unfold prodOf
    refine min_le_min (le_refl _) (mul_le_mul_of_nonneg_left ?_ (le_of_lt hb))
    exact max_le_max (le_refl 0) (by nlinarith)
  have hprod2 : 0 ≤ prodOf c st₂ := by
    unfold prodOf
    exact le_min (by positivity) (mul_nonneg (le_of_lt hb) (le_max_left 0 _))
  have hprodcap : prodOf c st₁ ≤ prodCap c := by
    unfold prodOf prodCap
    refine min_le_min (le_refl _) ?_
    have : max 0 (1 - kProd * scarcityOf c st₁) ≤ 1 := max_le (by norm_num) (by nlinarith)
    nlinarith
  have hpricele : priceOf c st₁ ≤ priceOf c st₂ := by
    unfold priceOf
    refine clampQ_mono _ _ ?_
    unfold refCost
    nlinarith
  have hpref : pRef c ≤ priceOf c st₁ := by
    unfold pRef priceOf
    refine clampQ_mono _ _ ?_
    unfold refCost
    nlinarith
  have hmultle := shockMultiplier_anti c.shock m₁ m₂ h0 h12 h1 hrr t
  have hmult2 := (shockMultiplier_mem { c.shock with magnitude := m₂ } (h0.trans h12) h1 hrr t).1
  have hrcm : (0 : ℚ) ≤ min 1 c.rules.route_capacity := le_min (by norm_num) (le_of_lt hrc)
  have hnq : (0 : ℚ) ≤ (c.n_firms : ℚ) := by positivity
  have hsupeq₂ : supplyOf (setMagnitude c m₂) t st₂ =
      (c.n_firms : ℚ) * prodOf c st₂ * shockMultiplier { c.shock with magnitude := m₂ } t *
        min 1 c.rules.route_capacity := rfl
  have hsupeq₁ : supplyOf (setMagnitude c m₁) t st₁ =
      (c.n_firms : ℚ) * prodOf c st₁ * shockMultiplier { c.shock with magnitude := m₁ } t *
        min 1 c.rules.route_capacity := rfl
  refine ⟨hpref, hpricele, hprodle, hprodcap, ?_, ?_⟩
  · rw [hsupeq₂]
    exact mul_nonneg (mul_nonneg (mul_nonneg hnq hprod2) hmult2) hrcm
  · rw [hsupeq₁, hsupeq₂]
    refine mul_le_mul_of_nonneg_right ?_ hrcm
    exact mul_le_mul (mul_le_mul_of_nonneg_left hprodle hnq) hmultle hmult2
      (mul_nonneg hnq (hprod2.trans hprodle))

/-- Pointwise relation between the snapshots of the mild-magnitude run
(left) and the severe-magnitude run (right). -/
def SnapRel (c : ScenarioConfig) (s₁ s₂ : Snapshot) : Prop :=
  pRef c ≤ s₁.price_index ∧ s₁.price_index ≤ s₂.price_index ∧
  s₂.production ≤ s₁.production ∧ s₁.production ≤ prodCap c ∧
  0 ≤ s₂.supply_true ∧ s₂.supply_true ≤ s₁.supply_true

/-- Rollout-level comparison: starting from related states, every period
of the severe-magnitude rollout is related to the corresponding period of
the mild-magnitude rollout. -/
lemma runFrom_rel (c : ScenarioConfig) (h : ValidConfig c) (m₁ m₂ : ℚ)
    (h0 : 0 ≤ m₁) (h12 : m₁ ≤ m₂) (h1 : m₂ ≤ 1) :
    ∀ (ts : List ℕ) (st₁ st₂ : SimState), st₂.rng = st₁.rng → 0 ≤ st₂.prevSupply →
      st₂.prevSupply ≤ st₁.prevSupply →
      List.Forall₂ (SnapRel c) (runFrom (setMagnitude c m₁) st₁ ts)
        (runFrom (setMagnitude c m₂) st₂ ts) := by
  intro ts
  induction ts with
  | nil => intro st₁ st₂ _ _ _; exact List.Forall₂.nil
  | cons t ts ih =>
      intro st₁ st₂ hrng hs0 hss
      obtain ⟨p1, p2, p3, p4, p5, p6⟩ :=
        step_compare c h m₁ m₂ h0 h12 h1 t st₁ st₂ hrng hs0 hss
      simp only [runFrom]
      refine List.Forall₂.cons ⟨p1, p2, p3, p4, p5, p6⟩ (ih _ _ ?_ ?_ ?_)
      · show lcg st₂.rng = lcg st₁.rng
        rw [hrng]
      · exact p5
      · exact p6

/-- The two magnitude variants have pointwise related trajectories. -/
lemma trajectory_rel (c : ScenarioConfig) (h : ValidConfig c) (m₁ m₂ : ℚ)
    (h0 : 0 ≤ m₁) (h12 : m₁ ≤ m₂) (h1 : m₂ ≤ 1) :
    List.Forall₂ (SnapRel c) (trajectory (setMagnitude c m₁))
      (trajectory (setMagnitude c m₂)) := by
  have hs := refSupply_pos c h.1
  exact runFrom_rel c h m₁ m₂ h0 h12 h1 (List.range c.horizon)
    (initState (setMagnitude c m₁)) (initState (setMagnitude c m₂))
    rfl (le_of_lt hs) (le_refl _)

/-- Transport a pointwise list relation through maps. -/
lemma forall₂_map_of_forall₂ {α β : Type} (R : α → β → Prop) (S : ℚ → ℚ → Prop)
    (f : α → ℚ) (g : β → ℚ) (hfg : ∀ a b, R a b → S (f a) (g b)) :
    ∀ {xs : List α} {ys : List β}, List.Forall₂ R xs ys →
      List.Forall₂ S (xs.map f) (ys.map g) := by
  intro xs ys h
  induction h with
  | nil => exact List.Forall₂.nil
  | cons hab _ ih => exact List.Forall₂.cons (hfg _ _ hab) ih

/-- Sums of squares respect pointwise domination of non-negative lists. -/
lemma sumSq_le_sumSq : ∀ {xs ys : List ℚ},
    List.Forall₂ (fun a b => 0 ≤ a ∧ a ≤ b) xs ys → sumSq xs ≤ sumSq ys := by
  intro xs ys h
  induction h with
  | nil => exact le_refl 0
  | cons hab _ ih =>
      rw [sumSq_cons, sumSq_cons]
      exact add_le_add (mul_self_le_mul_self hab.1 hab.2) ih

/-- Raising only the shock magnitude never lowers any of the three
volatility integrals. -/
lemma vols_mono (c : ScenarioConfig) (h : ValidConfig c) (m₁ m₂ : ℚ)
    (h0 : 0 ≤ m₁) (h12 : m₁ ≤ m₂) (h1 : m₂ ≤ 1) :
    priceVol (setMagnitude c m₁) ≤ priceVol (setMagnitude c m₂) ∧
    prodVol (setMagnitude c m₁) ≤ prodVol (setMagnitude c m₂) ∧
    shortVol (setMagnitude c m₁) ≤ shortVol (setMagnitude c m₂) := by
  have hrel := trajectory_rel c h m₁ m₂ h0 h12 h1
  have hh : (0 : ℚ) < ((setMagnitude c m₁).horizon : ℚ) := by
    have : 1 ≤ c.horizon := h.2.1
    show (0 : ℚ) < (c.horizon : ℚ)
    exact_mod_cast this
  refine ⟨?_, ?_, ?_⟩
  · unfold priceVol
    refine div_le_div_of_nonneg_right ?_ (le_of_lt hh) |>.trans_eq rfl
    refine sumSq_le_sumSq (forall₂_map_of_forall₂ (SnapRel c) _ _ _ ?_ hrel)
    intro a b hab
    obtain ⟨q1, q2, q3, q4, q5, q6⟩ := hab
    constructor
    · show 0 ≤ a.price_index - pRef c
      linarith
    · show a.price_index - pRef c ≤ b.price_index - pRef c
      linarith
  · unfold prodVol
    refine div_le_div_of_nonneg_right ?_ (le_of_lt hh) |>.trans_eq rfl
    refine sumSq_le_sumSq (forall₂_map_of_forall₂ (SnapRel c) _ _ _ ?_ hrel)
    intro a b hab
    obtain ⟨q1, q2, q3, q4, q5, q6⟩ := hab
    constructor
    · show 0 ≤ prodCap c - a.production
      linarith
    · show prodCap c - a.production ≤ prodCap c - b.production
      linarith
  · unfold shortVol
    refine div_le_div_of_nonneg_right ?_ (le_of_lt hh) |>.trans_eq rfl
    refine sumSq_le_sumSq (forall₂_map_of_forall₂ (SnapRel c) _ _ _ ?_ hrel)
    intro a b hab
    obtain ⟨q1, q2, q3, q4, q5, q6⟩ := hab
    constructor
    · show (0 : ℚ) ≤ max 0 (demandRef c - a.supply_true)
      exact le_max_left 0 _
    · show max 0 (demandRef c - a.supply_true) ≤ max 0 (demandRef c - b.supply_true)
      exact max_le_max (le_refl 0) (by linarith)

/-- C8: holding everything else fixed, raising the shock magnitude from
0.2 to 0.8 does not increase the stability score produced by the rollout:
the severe shock depresses the supply multiplier pointwise, which raises
perceived scarcity, prices, production cuts and supply shortfall in every
period, so every volatility component grows and the clamped weighted
stability score cannot rise. -/
theorem stability_antitone_in_shock_magnitude (c : ScenarioConfig) (h : ValidConfig c) :
    (run (setMagnitude c (8/10))).metrics.stability ≤
      (run (setMagnitude c (2/10))).metrics.stability := by
  obtain ⟨hv1, hv2, hv3⟩ := vols_mono c h (2/10) (8/10) (by norm_num) (by norm_num) (by norm_num)
  have hscale1 : (0 : ℚ) < priceVolScale := by norm_num [priceVolScale, priceMax, priceMin]
  have hscale2 : (0 : ℚ) < baseCapacity * baseCapacity := by norm_num [baseCapacity]
  have hscale3 : (0 : ℚ) < demandRef c * demandRef c := by
    have := refSupply_pos c h.1
    have heq : demandRef c = refSupply c := rfl
    nlinarith
  have hscale3a : demandRef (setMagnitude c (2/10)) * demandRef (setMagnitude c (2/10)) =
      demandRef c * demandRef c := rfl
  have hpc : priceComponent (setMagnitude c (8/10)) ≤ priceComponent (setMagnitude c (2/10)) := by
    unfold priceComponent
    have : priceVol (setMagnitude c (2/10)) / priceVolScale ≤
        priceVol (setMagnitude c (8/10)) / priceVolScale :=
      div_le_div_of_nonneg_right hv1 (le_of_lt hscale1) |>.trans_eq rfl
    have := min_le_min (le_refl (1 : ℚ)) this
    linarith
  have hqc : prodComponent (setMagnitude c (8/10)) ≤ prodComponent (setMagnitude c (2/10)) := by
    unfold prodComponent
    have : prodVol (setMagnitude c (2/10)) / (baseCapacity * baseCapacity) ≤
        prodVol (setMagnitude c (8/10)) / (baseCapacity * baseCapacity) :=
      div_le_div_of_nonneg_right hv2 (le_of_lt hscale2) |>.trans_eq rfl
    have := min_le_min (le_refl (1 : ℚ)) this
    linarith
  have hdc : demandComponent (setMagnitude c (8/10)) ≤
      demandComponent (setMagnitude c (2/10)) := by
    unfold demandComponent
    have hd : shortVol (setMagnitude c (2/10)) / (demandRef c * demandRef c) ≤
        shortVol (setMagnitude c (8/10)) / (demandRef c * demandRef c) :=
      div_le_div_of_nonneg_right hv3 (le_of_lt hscale3) |>.trans_eq rfl
    have := min_le_min (le_refl (1 : ℚ)) hd
    have he2 : demandRef (setMagnitude c (8/10)) * demandRef (setMagnitude c (8/10)) =
        demandRef c * demandRef c := rfl
    rw [hscale3a, he2]
    linarith
  have hrun2 : (run (setMagnitude c (2/10))).metrics.stability =
      stability (setMagnitude c (2/10)) := rfl
  have hrun8 : (run (setMagnitude c (8/10))).metrics.stability =
      stability (setMagnitude c (8/10)) := rfl
  rw [hrun2, hrun8]
  unfold stability
  refine clampQ_mono 0 1 ?_
  have hw1 : (0 : ℚ) ≤ wPriceStab := by norm_num [wPriceStab]
  have hw2 : (0 : ℚ) ≤ wProdStab := by norm_num [wProdStab]
  have hw3 : (0 : ℚ) ≤ wDemStab := by norm_num [wDemStab]
  nlinarith [mul_le_mul_of_nonneg_left hpc hw1, mul_le_mul_of_nonneg_left hqc hw2,
    mul_le_mul_of_nonneg_left hdc hw3]

/-- Witness for C8: the concrete scenario's stability does not rise when
its shock magnitude moves from 0.2 to 0.8. -/
theorem stability_antitone_in_shock_magnitude_witness :
    ValidConfig cfgA ∧
      (run (setMagnitude cfgA (8/10))).metrics.stability ≤
        (run (setMagnitude cfgA (2/10))).metrics.stability :=
  ⟨by norm_num [ValidConfig, cfgA],
    stability_antitone_in_shock_magnitude cfgA (by norm_num [ValidConfig, cfgA])⟩

/-- The ShockConfig interface of src/frontend/src/types/simulation.ts
(numbers as rationals, the optional recovery_rate as an Option). -/
structure ShockConfig where
  type : String
  magnitude : ℚ
  duration : ℚ
  start : ℚ
  recovery_rate : Option ℚ
deriving DecidableEq, Repr

/-- The RulesConfig interface of src/frontend/src/types/simulation.ts. -/
structure RulesConfig where
  tariff : ℚ
  route_capacity : ℚ
  storage_cap : ℚ
  demand_elasticity : ℚ
  subsidy_rate : Option ℚ
deriving DecidableEq, Repr

/-- The agent type union of src/frontend/src/types/simulation.ts. -/
inductive AgentTypeTS where
  | heuristic : AgentTypeTS
  | rnn : AgentTypeTS
deriving DecidableEq, Repr

/-- The AgentConfig interface of src/frontend/src/types/simulation.ts. -/
structure AgentConfig where
  type : AgentTypeTS
deriving DecidableEq, Repr

/-- The SimulationConfig interface of src/frontend/src/types/simulation.ts
(the request body sent to the backend). -/
structure SimulationConfig where
  n_firms : ℚ
  horizon : ℚ
  seed : Option ℚ
  shock : ShockConfig
  rules : RulesConfig
  agent : Option AgentConfig
deriving DecidableEq, Repr

/-- The SimulationParams interface of src/frontend/src/types/simulation.ts
(the flat user-facing parameter set). -/
structure SimulationParams where
  seed : ℚ
  n_firms : ℚ
  horizon : ℚ
  shock_magnitude : ℚ
  shock_duration : ℚ
  shock_start : ℚ
  tariff : ℚ
  route_capacity : ℚ
  storage_cap : ℚ
  demand_elasticity : ℚ
  agent_type : AgentTypeTS
deriving DecidableEq, Repr

/-- ApiService.buildConfig of the frontend API client
(src/frontend/src/types/simulation.ts, lines 302-325): builds the request
config from the user params. -/
def buildConfig (params : SimulationParams) : SimulationConfig :=
  { n_firms := params.n_firms,
    horizon := params.horizon,
    seed := some params.seed,
    shock :=
      { type := "lithium_supply",
        magnitude := params.shock_magnitude,
        duration := params.shock_duration,
        start := params.shock_start,
        recovery_rate := some 1 },
    rules :=
      { tariff := params.tariff,
        route_capacity := params.route_capacity,
        storage_cap := params.storage_cap,
        demand_elasticity := params.demand_elasticity,
        subsidy_rate := some 0 },
    agent := some { type := params.agent_type } }

/-- The config literal constructed inline by ApiService.runSimulation
(src/frontend/src/types/simulation.ts, lines 222-243), embedded separately
from buildConfig because the source spells it out twice. -/
def runSimulationConfig (params : SimulationParams) : SimulationConfig :=
  { n_firms := params.n_firms,
    horizon := params.horizon,
    seed := some params.seed,
    shock :=
      { type := "lithium_supply",
        magnitude := params.shock_magnitude,
        duration := params.shock_duration,
        start := params.shock_start,
        recovery_rate := some 1 },
    rules :=
      { tariff := params.tariff,
        route_capacity := params.route_capacity,
        storage_cap := params.storage_cap,
        demand_elasticity := params.demand_elasticity,
        subsidy_rate := some 0 },
    agent := some { type := params.agent_type } }

/-- C9: for every SimulationParams, both runSimulation and buildConfig fix
shock.recovery_rate to 1.0, shock.type to "lithium_supply" and
rules.subsidy_rate to 0.0 regardless of the user-supplied parameters,
copy every other config field unchanged from the corresponding params
field, and agree with each other. -/
theorem build_config_fixed_fields (p : SimulationParams) :
    (buildConfig p).shock.recovery_rate = some 1 ∧
    (buildConfig p).shock.type = "lithium_supply" ∧
    (buildConfig p).rules.subsidy_rate = some 0 ∧
    (buildConfig p).n_firms = p.n_firms ∧
    (buildConfig p).horizon = p.horizon ∧
    (buildConfig p).seed = some p.seed ∧
    (buildConfig p).shock.magnitude = p.shock_magnitude ∧
    (buildConfig p).shock.duration = p.shock_duration ∧
    (buildConfig p).shock.start = p.shock_start ∧
    (buildConfig p).rules.tariff = p.tariff ∧
    (buildConfig p).rules.route_capacity = p.route_capacity ∧
    (buildConfig p).rules.storage_cap = p.storage_cap ∧
    (buildConfig p).rules.demand_elasticity = p.demand_elasticity ∧
    (buildConfig p).agent = some { type := p.agent_type } ∧
    runSimulationConfig p = buildConfig p :=
  ⟨rfl, rfl, rfl, rfl, rfl, rfl, rfl, rfl, rfl, rfl, rfl, rfl, rfl, rfl, rfl⟩

/-- The WelfareBreakdown interface of src/frontend/src/types/simulation.ts. -/
structure WelfareBreakdown where
  welfare_score : ℚ
  total_value : ℚ
  scarcity_penalty : ℚ
  avg_consumer_surplus : ℚ
deriving DecidableEq, Repr

/-- The Metrics interface of src/frontend/src/types/simulation.ts, for a
result whose metrics are all defined (the CompareView reads them through
a ?? 0 default; C10 is scoped to defined metrics). -/
structure Metrics where
  stability : ℚ
  stability_breakdown : StabilityBreakdown
  welfare : ℚ
  welfare_breakdown : WelfareBreakdown
  cartel_likelihood : ℚ
  adapt_speed : ℚ
deriving DecidableEq, Repr

/-- The per-metric winner tag of CompareView.metricComparison
(src/unnamed/part_003): each row's `better` is either the learned or the
baseline agent. -/
inductive Better where
  | learned : Better
  | baseline : Better
deriving DecidableEq, Repr, Inhabited

/-- The overall winner of CompareView.winner (src/unnamed/part_003). -/
inductive Winner where
  | learned : Winner
  | baseline : Winner
  | tie : Winner
deriving DecidableEq, Repr

/-- One row of CompareView.metricComparison. -/
structure MetricRow where
  label : String
  baseline : ℚ
  learned : ℚ
  better : Better
  isHigherBetter : Bool
deriving DecidableEq, Repr

instance : Inhabited MetricRow :=
  ⟨{ label := "", baseline := 0, learned := 0, better := Better.learned,
     isHigherBetter := true }⟩

/-- CompareView.metricComparison (src/unnamed/part_003, lines 57-90): the
four compared metrics, each tagged with its winner; learned wins a row
when its stability or welfare is at least the baseline value, or its
cartel likelihood or adaptation speed is at most the baseline value. -/
def metricComparison (baseline learned : Metrics) : List MetricRow :=
  [ { label := "Stability", baseline := baseline.stability, learned := learned.stability,
      better := if baseline.stability ≤ learned.stability then Better.learned
        else Better.baseline,
      isHigherBetter := true },
    { label := "Cartel Likelihood", baseline := baseline.cartel_likelihood,
      learned := learned.cartel_likelihood,
      better := if learned.cartel_likelihood ≤ baseline.cartel_likelihood then Better.learned
        else Better.baseline,
      isHigherBetter := false },
    { label := "Welfare", baseline := baseline.welfare, learned := learned.welfare,
      better := if baseline.welfare ≤ learned.welfare then Better.learned
        else Better.baseline,
      isHigherBetter := true },
    { label := "Adapt Speed", baseline := baseline.adapt_speed, learned := learned.adapt_speed,
      better := if learned.adapt_speed ≤ baseline.adapt_speed then Better.learned
        else Better.baseline,
      isHigherBetter := false } ]

/-- Count of rows won by the learned agent. -/
def learnedWins (baseline learned : Metrics) : ℕ :=
  ((metricComparison baseline learned).filter
    (fun m => decide (m.better = Better.learned))).length

/-- Count of rows won by the baseline agent. -/
def baselineWins (baseline learned : Metrics) : ℕ :=
  ((metricComparison baseline learned).filter
    (fun m => decide (m.better = Better.baseline))).length

/-- CompareView.winner (src/unnamed/part_003, lines 92-99): tie on an
empty comparison, otherwise the agent with strictly more won rows, tie on
an equal split. -/
def winner (baseline learned : Metrics) : Winner :=
  if (metricComparison baseline learned).length = 0 then Winner.tie
  else if baselineWins baseline learned < learnedWins baseline learned then Winner.learned
  else if learnedWins baseline learned < baselineWins baseline learned then Winner.baseline
  else Winner.tie

/-- C10: CompareView marks each of the four compared metrics as won by the
learned agent exactly when learned stability, welfare are at least the
baseline values or learned cartel likelihood, adaptation speed are at most
the baseline values (an exact tie on a single metric counts for the
learned agent), and declares the overall winner to be the agent winning
strictly more of the four metrics, with a tie exactly when each wins
two. -/
theorem compare_view_spec (baseline learned : Metrics) :
    (metricComparison baseline learned).length = 4 ∧
    (((metricComparison baseline learned).getD 0 default).better = Better.learned ↔
      baseline.stability ≤ learned.stability) ∧
    (((metricComparison baseline learned).getD 1 default).better = Better.learned ↔
      learned.cartel_likelihood ≤ baseline.cartel_likelihood) ∧
    (((metricComparison baseline learned).getD 2 default).better = Better.learned ↔
      baseline.welfare ≤ learned.welfare) ∧
    (((metricComparison baseline learned).getD 3 default).better = Better.learned ↔
      learned.adapt_speed ≤ baseline.adapt_speed) ∧
    (winner baseline learned = Winner.learned ↔
      baselineWins baseline learned < learnedWins baseline learned) ∧
    (winner baseline learned = Winner.baseline ↔
      learnedWins baseline learned < baselineWins baseline learned) ∧
    (winner baseline learned = Winner.tie ↔
      learnedWins baseline learned = 2 ∧ baselineWins baseline learned = 2) := by
  by_cases h1 : baseline.stability ≤ learned.stability <;>
    by_cases h2 : learned.cartel_likelihood ≤ baseline.cartel_likelihood <;>
      by_cases h3 : baseline.welfare ≤ learned.welfare <;>
        by_cases h4 : learned.adapt_speed ≤ baseline.adapt_speed <;>
          simp [metricComparison, winner, learnedWins, baselineWins, h1, h2, h3, h4]

end LMASS
